import Mathlib

/-!
Verification of the offline-first synchronization engine (`SalesforceConnector`):
the sync queue drain loops (`processSyncQueue`, `processSyncQueueBatch`), the
bounded-retry wrapper (`retryOperation`), and the conflict detector/resolver
(`detectConflict`, `syncWithConflictResolution`).

The queue is embedded as a list of `SyncQueueItem`; the Dexie-backed store
operations used by the drain loops (`delete`, `update`, and the
`where(attempts).below(k)` query) are embedded as pure list transformations.
The per-item delivery `syncItem` (a network call against the remote system) is
a parameter `SyncQueueItem → Except String Unit`, and the retry wrapper is
parameterised by the outcome of each successive invocation of its operation.
-/

/-- A pending sync mutation, mirroring the `SyncQueueItem` interface:
store key `id`, entity `type`, `operation`, opaque `data`, the persisted
`attempts` counter, optional `lastAttempt` / `error` bookkeeping, and the
immutable `createdAt` timestamp (milliseconds). -/
structure SyncQueueItem where
  id : Nat
  type : String
  operation : String
  data : String
  attempts : Nat
  lastAttempt : Option Nat := none
  error : Option String := none
  createdAt : Nat
  deriving DecidableEq, Repr

/-- `MAX_ATTEMPTS`: the eligibility bound `below(5)` used by both drain loops. -/
def maxAttempts : Nat := 5

/-- Ordering of queue items by `createdAt` ascending (oldest first). -/
def itemLe (a b : SyncQueueItem) : Prop := a.createdAt ≤ b.createdAt

instance : DecidableRel itemLe := fun a b => Nat.decLe a.createdAt b.createdAt

instance : IsTotal SyncQueueItem itemLe := ⟨fun a b => Nat.le_total a.createdAt b.createdAt⟩

instance : IsTrans SyncQueueItem itemLe := ⟨fun _ _ _ hab hbc => Nat.le_trans hab hbc⟩

/-- Modelled from the spec: the Queue Store query used by the drain loops.
The store module (`./db`, a Dexie database) is not among the connector's
sources, so its query semantics are taken from the spec's Queue Store
contract: `dequeueEligible(maxAttempts, limit?)` returns the items with
`attempts < maxAttempts`, ordered by `createdAt` ascending (oldest first),
capped at `limit` when given and unbounded otherwise. -/
def dequeueEligible (maxA : Nat) (limit : Option Nat) (q : List SyncQueueItem) :
    List SyncQueueItem :=
  let sorted := List.insertionSort itemLe (q.filter (fun it => it.attempts < maxA))
  match limit with
  | none => sorted
  | some n => sorted.take n

/-- `db.syncQueue.delete(id)`: remove the item with the given store key. -/
def deleteItem (i : Nat) (q : List SyncQueueItem) : List SyncQueueItem :=
  q.filter (fun it => it.id ≠ i)

/-- `db.syncQueue.update(id, changes)` as invoked by the drain loops: on the
item with key `i`, set `attempts` to the given value, `lastAttempt` to the
current time and `error` to the failure message; other items are untouched. -/
def updateItem (i : Nat) (newAttempts : Nat) (now : Nat) (msg : String)
    (q : List SyncQueueItem) : List SyncQueueItem :=
  q.map (fun it =>
    if it.id = i then
      { it with attempts := newAttempts, lastAttempt := some now, error := some msg }
    else it)

/-- The aggregate result object of a drain. `errors` is `some _` when the
result object carries an `errors` key: `processSyncQueue` initialises
`errors: []` and pushes into it, while `processSyncQueueBatch` builds its
result object without an `errors` key (`errors = none`). -/
structure SyncResult where
  total : Nat
  success : Nat
  failed : Nat
  errors : Option (List (SyncQueueItem × String))
  deriving DecidableEq, Repr

/-- Intermediate state of the sequential drain loop: counters, collected
errors, the evolving store contents, and the trace of items for which
`syncItem` (the Remote Connector dispatch) has been invoked, in order. -/
structure DrainState where
  success : Nat
  failed : Nat
  errors : List (SyncQueueItem × String)
  queue : List SyncQueueItem
  calls : List SyncQueueItem
  deriving DecidableEq, Repr

/-- One iteration of the drain loop body: invoke `syncItem` on the item; on
success delete it from the store and count it, on failure count it, record
the error, and update the item's bookkeeping (`attempts + 1` from the
snapshot, `lastAttempt`, `error`) in place. -/
def drainStep (syncItem : SyncQueueItem → Except String Unit) (now : Nat)
    (st : DrainState) (item : SyncQueueItem) : DrainState :=
  match syncItem item with
  | Except.ok _ =>
      { st with success := st.success + 1,
                queue := deleteItem item.id st.queue,
                calls := st.calls ++ [item] }
  | Except.error e =>
      { st with failed := st.failed + 1,
                errors := st.errors ++ [(item, e)],
                queue := updateItem item.id (item.attempts + 1) now e st.queue,
                calls := st.calls ++ [item] }

/-- The sequential `for (const item of items)` loop shared by both drains. -/
def drainList (syncItem : SyncQueueItem → Except String Unit) (now : Nat) :
    List SyncQueueItem → DrainState → DrainState
  | [], st => st
  | item :: rest, st => drainList syncItem now rest (drainStep syncItem now st item)

/-- Outcome of a drain call: the returned result object, the final store
contents, and the ordered trace of `syncItem` invocations. -/
structure DrainOutcome where
  result : SyncResult
  queue : List SyncQueueItem
  calls : List SyncQueueItem
  deriving DecidableEq, Repr

/-- `processSyncQueue()`: snapshot every eligible item (`attempts < 5`,
no limit), process them sequentially, and return
`{ total, success, failed, errors }`. -/
def processSyncQueue (syncItem : SyncQueueItem → Except String Unit) (now : Nat)
    (q : List SyncQueueItem) : DrainOutcome :=
  let items := dequeueEligible maxAttempts none q
  let st := drainList syncItem now items ⟨0, 0, [], q, []⟩
  { result := { total := items.length, success := st.success, failed := st.failed,
                errors := some st.errors },
    queue := st.queue, calls := st.calls }

/-- `processSyncQueueBatch(batchSize)`: snapshot at most `batchSize` eligible
items, process them sequentially, and return `{ total, success, failed }` —
its result object is built without an `errors` key. -/
def processSyncQueueBatch (syncItem : SyncQueueItem → Except String Unit) (now : Nat)
    (batchSize : Nat) (q : List SyncQueueItem) : DrainOutcome :=
  let items := dequeueEligible maxAttempts (some batchSize) q
  let st := drainList syncItem now items ⟨0, 0, [], q, []⟩
  { result := { total := items.length, success := st.success, failed := st.failed,
                errors := none },
    queue := st.queue, calls := st.calls }

/-- Whether delivery of an item succeeds under the given connector behaviour. -/
def deliverOk (syncItem : SyncQueueItem → Except String Unit) (it : SyncQueueItem) : Bool :=
  match syncItem it with
  | Except.ok _ => true
  | Except.error _ => false

/-- The `errors[]` entry a failing item contributes: `{ item, error: message }`. -/
def errEntry (syncItem : SyncQueueItem → Except String Unit) (it : SyncQueueItem) :
    Option (SyncQueueItem × String) :=
  match syncItem it with
  | Except.ok _ => none
  | Except.error e => some (it, e)

/-- The `errorCode` of an authentication failure. -/
def sfAuthCode : String := "INVALID_SESSION_ID"

/-- The substring marking a validation failure `errorCode`. -/
def sfValidationTag : String := "VALIDATION"

/-- An error thrown by a remote call: optional `errorCode` plus a message. -/
structure SfError where
  errorCode : Option String
  message : String
  deriving DecidableEq, Repr

/-- The check `error.errorCode === sfAuthCode` of the retry loop. -/
def isAuthCode (e : SfError) : Bool :=
  e.errorCode == some sfAuthCode

/-- The check that `errorCode` exists and contains the validation tag as a
substring (JS `error.errorCode?.includes(tag)`), as containment of the tag's
character sequence in the code's character sequence. -/
def isValidationCode (e : SfError) : Bool :=
  match e.errorCode with
  | some s => decide (sfValidationTag.toList <:+: s.toList)
  | none => false

/-- `retryDelays`: the fixed backoff schedule, in milliseconds. -/
def retryDelays : List Nat := [1000, 2000, 4000, 8000, 16000]

/-- Placeholder for the initial (undefined) `lastError`; never reached from
`retryOperation`, whose loop runs at least once. -/
def defaultSfError : SfError := { errorCode := none, message := "" }

/-- Observable trace of one `retryOperation` run: the final outcome, how many
times the wrapped operation was invoked, how many re-authentication cycles
ran, and the backoff delays slept, in order. -/
structure RetryTrace (T : Type) where
  result : Except SfError T
  calls : Nat
  reauths : Nat
  delays : List Nat

/-- The `for (attempt...)` loop of `retryOperation`. `ops n` is the outcome of
the `n`-th invocation of the wrapped operation; `hasConfig` is whether
`this.config` is set; `fuel = retryDelays.length - attempt` counts remaining
iterations; `c` is the index of the next operation call; `ds` accumulates the
backoff delays slept so far; the last argument is the last caught error.
On an auth `errorCode` with a config present, one re-authentication cycle runs
(`initialize` is modelled as succeeding, per the spec's credential
collaborator) and the operation is tried exactly once more, whose outcome —
success or failure — ends the whole wrapper. On a validation `errorCode` the
error is rethrown at once. Otherwise the loop sleeps `retryDelays[attempt]`
(except after the last attempt) and retries; exhausted, it throws the last
error. -/
def retryGo {T : Type} (hasConfig : Bool) (ops : Nat → Except SfError T) :
    Nat → Nat → Nat → List Nat → Option SfError → RetryTrace T
  | 0, _, c, ds, lastE =>
      { result := Except.error (lastE.getD defaultSfError), calls := c,
        reauths := 0, delays := ds }
  | fuel + 1, attempt, c, ds, _ =>
      match ops c with
      | Except.ok v => { result := Except.ok v, calls := c + 1, reauths := 0, delays := ds }
      | Except.error e =>
        if isAuthCode e && hasConfig then
          { result := ops (c + 1), calls := c + 2, reauths := 1, delays := ds }
        else if isValidationCode e then
          { result := Except.error e, calls := c + 1, reauths := 0, delays := ds }
        else
          let ds2 := if attempt < retryDelays.length - 1
                     then ds ++ [retryDelays.getD attempt 0] else ds
          retryGo hasConfig ops fuel (attempt + 1) (c + 1) ds2 (some e)

/-- `retryOperation(operation)`: run the retry loop from attempt 0. -/
def retryOperation {T : Type} (hasConfig : Bool) (ops : Nat → Except SfError T) :
    RetryTrace T :=
  retryGo hasConfig ops retryDelays.length 0 0 [] none

/-- The segment of the backoff schedule slept across `j` consecutive transient
failures starting at attempt index `a`. -/
def delaysSeg : Nat → Nat → List Nat
  | _, 0 => []
  | a, j + 1 => retryDelays.getD a 0 :: delaysSeg (a + 1) j

/-- A record as seen by the conflict resolver: an optional `lastModified`
timestamp (milliseconds; `none` when the property is absent or falsy) plus
the remaining fields as a string-keyed partial map. -/
structure JsRecord (V : Type) where
  lastModified : Option Int
  fields : String → Option V

/-- `detectConflict(localData, remoteData)`: false when either side lacks
`lastModified`; otherwise true iff the timestamps differ by more than the
1-second tolerance. -/
def detectConflict {V : Type} (localData remoteData : JsRecord V) : Bool :=
  match localData.lastModified, remoteData.lastModified with
  | some lt, some rt => 1000 < (lt - rt).natAbs
  | _, _ => false

/-- The JS object spread `{ ...base, ...override }` on the non-`lastModified`
fields: a key present on `override` wins, otherwise `base`'s value is kept. -/
def spreadFields {V : Type} (base override : String → Option V) : String → Option V :=
  fun k =>
    match override k with
    | some v => some v
    | none => base k

/-- `syncWithConflictResolution(localData, remoteData)`: on a detected
conflict, return the shallow merge `{ ...localData, ...remoteData }` with
`lastModified` stamped to the resolution instant `now`; otherwise return
`localData` unchanged. -/
def syncWithConflictResolution {V : Type} (now : Int) (localData remoteData : JsRecord V) :
    JsRecord V :=
  if detectConflict localData remoteData then
    { lastModified := some now, fields := spreadFields localData.fields remoteData.fields }
  else
    localData

/-- The `id` key, as read by callers of the conflict resolver. -/
def fieldId : String := "id"

/-- Witness data: a connector behaviour that always succeeds. -/
def fOkW : SyncQueueItem → Except String Unit := fun _ => Except.ok ()

/-- Witness data: a delivery failure message. -/
def errMsgW : String := "network timeout"

/-- Witness data: a connector behaviour that always fails. -/
def fFailW : SyncQueueItem → Except String Unit := fun _ => Except.error errMsgW

/-- Witness data: an eligible queue item created late. -/
def itW1 : SyncQueueItem :=
  { id := 1, type := "bid", operation := "create", data := "d1", attempts := 0,
    createdAt := 300 }

/-- Witness data: an eligible queue item created first. -/
def itW2 : SyncQueueItem :=
  { id := 2, type := "quote", operation := "update", data := "d2", attempts := 1,
    createdAt := 100 }

/-- Witness data: a permanently failed queue item (`attempts = 5`). -/
def itW3 : SyncQueueItem :=
  { id := 3, type := "bid", operation := "create", data := "d3", attempts := 5,
    createdAt := 200 }

/-- Witness data: a queue holding two eligible items (out of `createdAt`
order) and one permanently failed item. -/
def qW : List SyncQueueItem := [itW1, itW2, itW3]

/-- Witness data: an authentication failure. -/
def authErrW : SfError := { errorCode := some sfAuthCode, message := "Session expired" }

/-- Witness data: an operation failing with an authentication error on every call. -/
def opsAuthW : Nat → Except SfError Unit := fun _ => Except.error authErrW

/-- Witness data: a transient failure (no `errorCode`). -/
def transErrW : SfError := { errorCode := none, message := errMsgW }

/-- Witness data: an operation failing transiently on every call. -/
def opsTransW : Nat → Except SfError Unit := fun _ => Except.error transErrW

/-- Witness data: a validation failure, with the tag inside the `errorCode`. -/
def valErrW : SfError :=
  { errorCode := some "FIELD_CUSTOM_VALIDATION_EXCEPTION", message := "bad payload" }

/-- Witness data: an operation failing with a validation error on every call. -/
def opsValW : Nat → Except SfError Unit := fun _ => Except.error valErrW

/-- The `phone` key of the witness records. -/
def fieldPhoneW : String := "phone"

/-- The `price` key of the witness records. -/
def fieldPriceW : String := "price"

/-- Witness data: a local record (id 1, a phone field, modified at time 0). -/
def lRecW : JsRecord Int :=
  { lastModified := some 0,
    fields := fun k => if k = fieldId then some 1 else if k = fieldPhoneW then some 7 else none }

/-- Witness data: a remote record (id 2, a price field, modified at 5000 ms),
in conflict with `lRecW`. -/
def rRecW : JsRecord Int :=
  { lastModified := some 5000,
    fields := fun k => if k = fieldId then some 2 else if k = fieldPriceW then some 9 else none }

/-- Witness data: a remote record within the 1-second tolerance of `lRecW`. -/
def rNoW : JsRecord Int := { lastModified := some 500, fields := fun _ => none }

/-- The drain loop invokes the connector on exactly the snapshot items, in order. -/
lemma drainList_calls (f : SyncQueueItem → Except String Unit) (now : Nat)
    (items : List SyncQueueItem) : ∀ st : DrainState,
    (drainList f now items st).calls = st.calls ++ items := by
  induction items with
  | nil => intro st; simp [drainList]
  | cons item rest ih =>
    intro st
    rw [drainList, ih]
    cases hfi : f item <;> simp [drainStep, hfi]

/-- The drain loop counts one success per succeeding snapshot item. -/
lemma drainList_success (f : SyncQueueItem → Except String Unit) (now : Nat)
    (items : List SyncQueueItem) : ∀ st : DrainState,
    (drainList f now items st).success = st.success + items.countP (deliverOk f) := by
  induction items with
  | nil => intro st; simp [drainList]
  | cons item rest ih =>
    intro st
    rw [drainList, ih]
    cases hfi : f item <;> simp [drainStep, deliverOk, hfi, List.countP_cons] <;> omega

/-- The drain loop counts one failure per failing snapshot item. -/
lemma drainList_failed (f : SyncQueueItem → Except String Unit) (now : Nat)
    (items : List SyncQueueItem) : ∀ st : DrainState,
    (drainList f now items st).failed =
      st.failed + items.countP (fun it => !(deliverOk f it)) := by
  induction items with
  | nil => intro st; simp [drainList]
  | cons item rest ih =>
    intro st
    rw [drainList, ih]
    cases hfi : f item <;> simp [drainStep, deliverOk, hfi, List.countP_cons] <;> omega

/-- The drain loop records exactly one `errors[]` entry per failing item. -/
lemma drainList_errors (f : SyncQueueItem → Except String Unit) (now : Nat)
    (items : List SyncQueueItem) : ∀ st : DrainState,
    (drainList f now items st).errors = st.errors ++ items.filterMap (errEntry f) := by
  induction items with
  | nil => intro st; simp [drainList]
  | cons item rest ih =>
    intro st
    rw [drainList, ih]
    cases hfi : f item <;> simp [drainStep, errEntry, hfi]

/-- An item whose store key differs from every snapshot item's key survives
the whole drain loop in the store. -/
lemma drainList_queue_mem (f : SyncQueueItem → Except String Unit) (now : Nat)
    (x : SyncQueueItem) (items : List SyncQueueItem) : ∀ st : DrainState,
    x ∈ st.queue → (∀ p ∈ items, p.id ≠ x.id) →
    x ∈ (drainList f now items st).queue := by
  induction items with
  | nil => intro st hx _; simpa [drainList] using hx
  | cons item rest ih =>
    intro st hx hne
    rw [drainList]
    refine ih _ ?_ (fun p hp => hne p (List.mem_cons_of_mem _ hp))
    have hid : item.id ≠ x.id := hne item (List.mem_cons_self _ _)
    have hxid : ¬ x.id = item.id := fun h => hid h.symm
    cases hfi : f item with
    | ok v =>
      have hmem : x ∈ deleteItem item.id st.queue := by
        simp only [deleteItem, List.mem_filter]
        exact ⟨hx, by simpa using hxid⟩
      simpa [drainStep, hfi] using hmem
    | error e =>
      have hmem : x ∈ updateItem item.id (item.attempts + 1) now e st.queue := by
        simp only [updateItem, List.mem_map]
        exact ⟨x, hx, by simp [hxid]⟩
      simpa [drainStep, hfi] using hmem

/-- Members of the dequeued snapshot come from the store and are eligible. -/
lemma mem_dequeueEligible {p : SyncQueueItem} {maxA : Nat} {limit : Option Nat}
    {q : List SyncQueueItem} (hp : p ∈ dequeueEligible maxA limit q) :
    p ∈ q ∧ p.attempts < maxA := by
  unfold dequeueEligible at hp
  have hs : p ∈ List.insertionSort itemLe (q.filter (fun it => it.attempts < maxA)) := by
    cases limit with
    | none => exact hp
    | some n => exact List.take_subset n _ hp
  rw [List.mem_insertionSort] at hs
  have := List.mem_filter.mp hs
  exact ⟨this.1, by simpa using this.2⟩

/-- Counting a predicate and its negation over a list covers its length. -/
lemma countP_add_countP_not (p : SyncQueueItem → Bool) (l : List SyncQueueItem) :
    l.countP p + l.countP (fun a => !(p a)) = l.length := by
  induction l with
  | nil => simp
  | cons a l ih =>
    rw [List.countP_cons, List.countP_cons]
    cases h : p a <;> simp [h] <;> omega

/-- C1: `processSyncQueue` dequeues the eligible items (`attempts < 5`) as one
snapshot and processes them strictly sequentially in `createdAt` ascending
order: with an always-succeeding connector, the connector-invocation trace is
a permutation of the eligible items sorted oldest-first, and every one of
them is delivered (counted as a success) in that single call. -/
theorem C1_processAll_drains_in_createdAt_order
    (f : SyncQueueItem → Except String Unit) (now : Nat) (q : List SyncQueueItem)
    (hok : ∀ it, f it = Except.ok ()) :
    ((processSyncQueue f now q).calls).Perm
        (q.filter (fun it => it.attempts < maxAttempts)) ∧
    List.Pairwise itemLe ((processSyncQueue f now q).calls) ∧
    (processSyncQueue f now q).result.success =
      (q.filter (fun it => it.attempts < maxAttempts)).length ∧
    (processSyncQueue f now q).result.failed = 0 := by
  have hcalls : (processSyncQueue f now q).calls = dequeueEligible maxAttempts none q := by
    simp [processSyncQueue, drainList_calls]
  have hde : dequeueEligible maxAttempts none q =
      List.insertionSort itemLe (q.filter (fun it => it.attempts < maxAttempts)) := rfl
  refine ⟨?_, ?_, ?_, ?_⟩
  · rw [hcalls, hde]
    exact List.perm_insertionSort itemLe _
  · rw [hcalls, hde]
    exact List.sorted_insertionSort itemLe _
  · have hs : (processSyncQueue f now q).result.success =
        (dequeueEligible maxAttempts none q).countP (deliverOk f) := by
      simp [processSyncQueue, drainList_success]
    rw [hs, List.countP_eq_length.mpr (fun it _ => by simp [deliverOk, hok it]), hde]
    exact (List.perm_insertionSort itemLe _).length_eq
  · have hf : (processSyncQueue f now q).result.failed =
        (dequeueEligible maxAttempts none q).countP (fun it => !(deliverOk f it)) := by
      simp [processSyncQueue, drainList_failed]
    rw [hf]
    exact List.countP_eq_zero.mpr (fun it _ => by simp [deliverOk, hok it])

/-- C1 witness: on a concrete queue of two eligible items enqueued out of
`createdAt` order plus one permanently failed item, an always-succeeding
connector yields the stated drain behaviour. -/
theorem C1_witness :
    ((processSyncQueue fOkW 7 qW).calls).Perm
        (qW.filter (fun it => it.attempts < maxAttempts)) ∧
    List.Pairwise itemLe ((processSyncQueue fOkW 7 qW).calls) ∧
    (processSyncQueue fOkW 7 qW).result.success =
      (qW.filter (fun it => it.attempts < maxAttempts)).length ∧
    (processSyncQueue fOkW 7 qW).result.failed = 0 :=
  C1_processAll_drains_in_createdAt_order fOkW 7 qW (fun _ => rfl)

/-- C2: an item with `attempts ≥ 5` is never handed to the connector by either
drain and is never deleted: it is excluded from both snapshots and still in
the store afterwards (keys being store-unique). -/
theorem C2_permanently_failed_item_never_dispatched_or_deleted
    (f : SyncQueueItem → Except String Unit) (now bs : Nat) (q : List SyncQueueItem)
    (it : SyncQueueItem) (hid : (q.map (fun p => p.id)).Nodup)
    (hmem : it ∈ q) (ha : maxAttempts ≤ it.attempts) :
    it ∉ (processSyncQueue f now q).calls ∧
    it ∈ (processSyncQueue f now q).queue ∧
    it ∉ (processSyncQueueBatch f now bs q).calls ∧
    it ∈ (processSyncQueueBatch f now bs q).queue := by
  have hne : ∀ (limit : Option Nat), ∀ p ∈ dequeueEligible maxAttempts limit q,
      p.id ≠ it.id := by
    intro limit p hp hpid
    obtain ⟨hpq, hplt⟩ := mem_dequeueEligible hp
    have hpe : p = it := List.inj_on_of_nodup_map hid hpq hmem hpid
    subst hpe
    omega
  have hnotin : ∀ (limit : Option Nat), it ∉ dequeueEligible maxAttempts limit q :=
    fun limit hin => (hne limit it hin) rfl
  have hq : ∀ (limit : Option Nat),
      it ∈ (drainList f now (dequeueEligible maxAttempts limit q) ⟨0, 0, [], q, []⟩).queue :=
    fun limit => drainList_queue_mem f now it _ _ hmem (hne limit)
  refine ⟨?_, ?_, ?_, ?_⟩
  · have hc : (processSyncQueue f now q).calls = dequeueEligible maxAttempts none q := by
      simp [processSyncQueue, drainList_calls]
    rw [hc]
    exact hnotin none
  · exact hq none
  · have hc : (processSyncQueueBatch f now bs q).calls =
        dequeueEligible maxAttempts (some bs) q := by
      simp [processSyncQueueBatch, drainList_calls]
    rw [hc]
    exact hnotin (some bs)
  · exact hq (some bs)

/-- C2 witness: the `attempts = 5` item of the concrete queue is never
dispatched and survives both drains (under an always-failing connector). -/
theorem C2_witness :
    itW3 ∉ (processSyncQueue fFailW 7 qW).calls ∧
    itW3 ∈ (processSyncQueue fFailW 7 qW).queue ∧
    itW3 ∉ (processSyncQueueBatch fFailW 7 20 qW).calls ∧
    itW3 ∈ (processSyncQueueBatch fFailW 7 20 qW).queue :=
  C2_permanently_failed_item_never_dispatched_or_deleted fFailW 7 20 qW itW3
    (by decide) (by decide) (by decide)

/-- C5: one item's failure never aborts the rest of the drain. For any
connector behaviour, `processSyncQueue` invokes the connector on every
dequeued item, its aggregate counts `success + failed` cover the whole
snapshot (`total`), and its `errors` array records exactly the failing
items with their messages, in processing order. -/
theorem C5_failure_isolation_and_aggregate (f : SyncQueueItem → Except String Unit)
    (now : Nat) (q : List SyncQueueItem) :
    (processSyncQueue f now q).calls = dequeueEligible maxAttempts none q ∧
    (processSyncQueue f now q).result.total =
      (dequeueEligible maxAttempts none q).length ∧
    (processSyncQueue f now q).result.success + (processSyncQueue f now q).result.failed =
      (processSyncQueue f now q).result.total ∧
    (processSyncQueue f now q).result.errors =
      some ((dequeueEligible maxAttempts none q).filterMap (errEntry f)) := by
  refine ⟨?_, ?_, ?_, ?_⟩
  · simp [processSyncQueue, drainList_calls]
  · simp [processSyncQueue]
  · have hs : (processSyncQueue f now q).result.success =
        (dequeueEligible maxAttempts none q).countP (deliverOk f) := by
      simp [processSyncQueue, drainList_success]
    have hf : (processSyncQueue f now q).result.failed =
        (dequeueEligible maxAttempts none q).countP (fun it => !(deliverOk f it)) := by
      simp [processSyncQueue, drainList_failed]
    have ht : (processSyncQueue f now q).result.total =
        (dequeueEligible maxAttempts none q).length := by
      simp [processSyncQueue]
    rw [hs, hf, ht]
    exact countP_add_countP_not (deliverOk f) _
  · simp [processSyncQueue, drainList_errors]

/-- C8 counterexample: the claim asserts `processBatch` returns the same
result shape as `processAll`, i.e. `{total, success, failed, errors[]}`; on a
concrete queue with failing deliveries, `processSyncQueue` returns a result
carrying an `errors` key while the batch result of `processSyncQueueBatch`
carries none. -/
theorem C8_counterexample :
    (processSyncQueueBatch fFailW 7 20 qW).result.errors = none ∧
    (processSyncQueue fFailW 7 qW).result.errors ≠ none := by
  constructor
  · rfl
  · decide

/-- C8 (amended): `processSyncQueueBatch(batchSize)` dequeues at most
`batchSize` eligible items and returns `{total, success, failed}` with
`total` the snapshot size and `success + failed = total`, but — unlike
`processSyncQueue` — its result carries no `errors` key. -/
theorem C8_batch_bounded_same_counts_no_errors_key
    (f : SyncQueueItem → Except String Unit) (now bs : Nat) (q : List SyncQueueItem) :
    (processSyncQueueBatch f now bs q).calls = dequeueEligible maxAttempts (some bs) q ∧
    (processSyncQueueBatch f now bs q).result.total =
      (dequeueEligible maxAttempts (some bs) q).length ∧
    (processSyncQueueBatch f now bs q).result.total ≤ bs ∧
    (processSyncQueueBatch f now bs q).result.success +
        (processSyncQueueBatch f now bs q).result.failed =
      (processSyncQueueBatch f now bs q).result.total ∧
    (processSyncQueueBatch f now bs q).result.errors = none := by
  have ht : (processSyncQueueBatch f now bs q).result.total =
      (dequeueEligible maxAttempts (some bs) q).length := by
    simp [processSyncQueueBatch]
  refine ⟨?_, ht, ?_, ?_, ?_⟩
  · simp [processSyncQueueBatch, drainList_calls]
  · rw [ht]
    have : dequeueEligible maxAttempts (some bs) q =
        (List.insertionSort itemLe (q.filter (fun it => it.attempts < maxAttempts))).take bs :=
      rfl
    rw [this, List.length_take]
    exact min_le_left _ _
  · have hs : (processSyncQueueBatch f now bs q).result.success =
        (dequeueEligible maxAttempts (some bs) q).countP (deliverOk f) := by
      simp [processSyncQueueBatch, drainList_success]
    have hf : (processSyncQueueBatch f now bs q).result.failed =
        (dequeueEligible maxAttempts (some bs) q).countP (fun it => !(deliverOk f it)) := by
      simp [processSyncQueueBatch, drainList_failed]
    rw [hs, hf, ht]
    exact countP_add_countP_not (deliverOk f) _
  · rfl

/-- A validation `errorCode` is never the auth `errorCode`: the tag does not
occur in `sfAuthCode`, so the auth guard cannot fire on a validation error. -/
lemma validation_not_auth (e : SfError) (hv : isValidationCode e = true) :
    isAuthCode e = false := by
  rcases e with ⟨ec, m⟩
  cases ec with
  | none => rfl
  | some s =>
    by_cases hs : s = sfAuthCode
    · subst hs
      simp only [isValidationCode, decide_eq_true_eq] at hv
      exact absurd hv (by decide)
    · simp [isAuthCode, hs]

/-- Running the retry loop across `j` consecutive transient failures advances
the attempt counter, the call index, and the slept-delay list by `j`, staying
inside the loop. -/
lemma retryGo_run {T : Type} (cfg : Bool) (ops : Nat → Except SfError T) :
    ∀ (j fuel attempt c : Nat) (ds : List Nat) (le : Option SfError),
      attempt + fuel = retryDelays.length →
      attempt + j < retryDelays.length →
      (∀ n, n < j → ∃ e, ops (c + n) = Except.error e ∧
          isAuthCode e = false ∧ isValidationCode e = false) →
      ∃ le2, retryGo cfg ops fuel attempt c ds le =
        retryGo cfg ops (fuel - j) (attempt + j) (c + j) (ds ++ delaysSeg attempt j) le2 := by
  intro j
  induction j with
  | zero =>
    intro fuel attempt c ds le hfa hlt htr
    exact ⟨le, by simp [delaysSeg]⟩
  | succ j ih =>
    intro fuel attempt c ds le hfa hlt htr
    obtain ⟨e, he, hea, hev⟩ := htr 0 (Nat.succ_pos j)
    have hlen : retryDelays.length = 5 := rfl
    obtain ⟨fl, rfl⟩ : ∃ fl, fuel = fl + 1 := ⟨fuel - 1, by omega⟩
    have hd : attempt < retryDelays.length - 1 := by omega
    have hstep : retryGo cfg ops (fl + 1) attempt c ds le =
        retryGo cfg ops fl (attempt + 1) (c + 1)
          (ds ++ [retryDelays.getD attempt 0]) (some e) := by
      simp only [Nat.add_zero] at he
      simp [retryGo, he, hea, hev, hd]
    rw [hstep]
    obtain ⟨le2, h2⟩ := ih fl (attempt + 1) (c + 1) (ds ++ [retryDelays.getD attempt 0])
      (some e) (by omega) (by omega)
      (fun n hn => by
        obtain ⟨e2, he2, h1, h3⟩ := htr (n + 1) (by omega)
        exact ⟨e2, by rw [show c + 1 + n = c + (n + 1) from by omega]; exact he2, h1, h3⟩)
    refine ⟨le2, ?_⟩
    have e1 : fl + 1 - (j + 1) = fl - j := by omega
    have e2 : attempt + (j + 1) = attempt + 1 + j := by omega
    have e3 : c + (j + 1) = c + 1 + j := by omega
    have e4 : ds ++ delaysSeg attempt (j + 1) =
        (ds ++ [retryDelays.getD attempt 0]) ++ delaysSeg (attempt + 1) j := by
      simp [delaysSeg]
    rw [e1, e2, e3, e4]
    exact h2

/-- The first `j` backoff delays, as slept by the loop, are an initial
segment of the fixed schedule. -/
lemma delaysSeg_zero_eq_take (j : Nat) (hj : j < 5) :
    delaysSeg 0 j = retryDelays.take j := by
  interval_cases j <;> rfl

/-- C3: when the wrapped operation fails with a transient error on every
call, `retryOperation` invokes it exactly 5 times, sleeps the schedule's
delays `[1s, 2s, 4s, 8s]` between consecutive attempts in order, performs no
re-authentication, and propagates the error of the final (5th) attempt. -/
theorem C3_transient_failures_exhaust_five_attempts {T : Type} (cfg : Bool)
    (ops : Nat → Except SfError T)
    (htr : ∀ n, n < 5 → ∃ e, ops n = Except.error e ∧
        isAuthCode e = false ∧ isValidationCode e = false) :
    (retryOperation cfg ops).calls = 5 ∧
    (retryOperation cfg ops).reauths = 0 ∧
    (retryOperation cfg ops).delays = [1000, 2000, 4000, 8000] ∧
    (retryOperation cfg ops).result = ops 4 := by
  obtain ⟨le2, hrun⟩ := retryGo_run cfg ops 4 5 0 0 [] none rfl (by decide)
    (fun n hn => by simpa using htr n (by omega))
  obtain ⟨e4, he4, hea4, hev4⟩ := htr 4 (by omega)
  have hfin : retryGo cfg ops 1 4 4 (delaysSeg 0 4) le2 =
      { result := Except.error e4, calls := 5, reauths := 0, delays := delaysSeg 0 4 } := by
    simp only [retryGo, he4, hea4, hev4, Bool.false_and, Bool.false_eq_true,
      not_false_eq_true, if_neg]
    have : ¬ (4 < retryDelays.length - 1) := by decide
    simp [this, retryGo, Option.getD]
  have hall : retryOperation cfg ops =
      { result := Except.error e4, calls := 5, reauths := 0, delays := delaysSeg 0 4 } := by
    rw [retryOperation]
    have h0 : retryGo cfg ops retryDelays.length 0 0 [] none =
        retryGo cfg ops 5 0 0 [] none := rfl
    rw [h0, hrun]
    simpa using hfin
  rw [hall, he4]
  exact ⟨rfl, rfl, rfl, rfl⟩

/-- C3 witness: an operation that always fails transiently is attempted 5
times, with the first four schedule delays slept, and the final error
propagates. -/
theorem C3_witness :
    (retryOperation true opsTransW).calls = 5 ∧
    (retryOperation true opsTransW).reauths = 0 ∧
    (retryOperation true opsTransW).delays = [1000, 2000, 4000, 8000] ∧
    (retryOperation true opsTransW).result = opsTransW 4 :=
  C3_transient_failures_exhaust_five_attempts true opsTransW
    (fun _ _ => ⟨transErrW, rfl, rfl, rfl⟩)

/-- C4: when attempt `j` fails with the auth `errorCode` and the connector is
configured (after `j` transient failures), exactly one re-authentication
cycle runs and the operation is tried exactly once more: the wrapper makes
`j + 2` calls in total, its outcome is whatever the extra retry returns —
a failure there propagates — and no backoff delay beyond the `j` already
slept is consumed. -/
theorem C4_auth_one_reauth_one_retry {T : Type} (ops : Nat → Except SfError T)
    (j : Nat) (hj : j < 5)
    (htr : ∀ n, n < j → ∃ e, ops n = Except.error e ∧
        isAuthCode e = false ∧ isValidationCode e = false)
    (hauth : ∃ e, ops j = Except.error e ∧ isAuthCode e = true) :
    (retryOperation true ops).reauths = 1 ∧
    (retryOperation true ops).calls = j + 2 ∧
    (retryOperation true ops).result = ops (j + 1) ∧
    (retryOperation true ops).delays = retryDelays.take j := by
  obtain ⟨e, he, hea⟩ := hauth
  obtain ⟨le2, hrun⟩ := retryGo_run true ops j 5 0 0 [] none rfl
    (by simp [retryDelays]; omega) (fun n hn => by simpa using htr n hn)
  obtain ⟨fl, hfl⟩ : ∃ fl, 5 - j = fl + 1 := ⟨4 - j, by omega⟩
  have hfin : retryGo true ops (fl + 1) j j (delaysSeg 0 j) le2 =
      { result := ops (j + 1), calls := j + 2, reauths := 1,
        delays := delaysSeg 0 j } := by
    simp [retryGo, he, hea]
  have hall : retryOperation true ops =
      { result := ops (j + 1), calls := j + 2, reauths := 1,
        delays := delaysSeg 0 j } := by
    rw [retryOperation]
    have h0 : retryGo true ops retryDelays.length 0 0 [] none =
        retryGo true ops 5 0 0 [] none := rfl
    rw [h0, hrun]
    simp only [Nat.zero_add, List.nil_append]
    rw [hfl]
    exact hfin
  rw [hall]
  exact ⟨rfl, rfl, rfl, delaysSeg_zero_eq_take j hj⟩

/-- C4 witness: an operation failing with the auth `errorCode` on its first
attempt gets exactly one re-authentication and one extra retry; the retry's
failure is the wrapper's outcome, with no backoff delay consumed. -/
theorem C4_witness :
    (retryOperation true opsAuthW).reauths = 1 ∧
    (retryOperation true opsAuthW).calls = 0 + 2 ∧
    (retryOperation true opsAuthW).result = opsAuthW (0 + 1) ∧
    (retryOperation true opsAuthW).delays = retryDelays.take 0 :=
  C4_auth_one_reauth_one_retry opsAuthW 0 (by decide)
    (fun n hn => absurd hn (Nat.not_lt_zero n)) ⟨authErrW, rfl, by decide⟩

/-- C9: when attempt `j` fails with a validation `errorCode` (after `j`
transient failures), the error is rethrown at once: no further operation
call, no re-authentication, and no backoff delay beyond the `j` already
slept. -/
theorem C9_validation_error_never_retried {T : Type} (cfg : Bool)
    (ops : Nat → Except SfError T) (j : Nat) (hj : j < 5)
    (htr : ∀ n, n < j → ∃ e, ops n = Except.error e ∧
        isAuthCode e = false ∧ isValidationCode e = false)
    (e : SfError) (he : ops j = Except.error e) (hev : isValidationCode e = true) :
    (retryOperation cfg ops).result = Except.error e ∧
    (retryOperation cfg ops).calls = j + 1 ∧
    (retryOperation cfg ops).reauths = 0 ∧
    (retryOperation cfg ops).delays = retryDelays.take j := by
  have hea : isAuthCode e = false := validation_not_auth e hev
  obtain ⟨le2, hrun⟩ := retryGo_run cfg ops j 5 0 0 [] none rfl
    (by simp [retryDelays]; omega) (fun n hn => by simpa using htr n hn)
  obtain ⟨fl, hfl⟩ : ∃ fl, 5 - j = fl + 1 := ⟨4 - j, by omega⟩
  have hfin : retryGo cfg ops (fl + 1) j j (delaysSeg 0 j) le2 =
      { result := Except.error e, calls := j + 1, reauths := 0,
        delays := delaysSeg 0 j } := by
    simp [retryGo, he, hea, hev]
  have hall : retryOperation cfg ops =
      { result := Except.error e, calls := j + 1, reauths := 0,
        delays := delaysSeg 0 j } := by
    rw [retryOperation]
    have h0 : retryGo cfg ops retryDelays.length 0 0 [] none =
        retryGo cfg ops 5 0 0 [] none := rfl
    rw [h0, hrun]
    simp only [Nat.zero_add, List.nil_append]
    rw [hfl]
    exact hfin
  rw [hall]
  exact ⟨rfl, rfl, rfl, delaysSeg_zero_eq_take j hj⟩

/-- C9 witness: an operation whose first attempt fails with a validation
`errorCode` propagates the error immediately: a single call, no
re-authentication, no backoff delay. -/
theorem C9_witness :
    (retryOperation true opsValW).result = Except.error valErrW ∧
    (retryOperation true opsValW).calls = 0 + 1 ∧
    (retryOperation true opsValW).reauths = 0 ∧
    (retryOperation true opsValW).delays = retryDelays.take 0 :=
  C9_validation_error_never_retried true opsValW 0 (by decide)
    (fun n hn => absurd hn (Nat.not_lt_zero n)) valErrW rfl (by decide)

/-- C6: `detectConflict` is true exactly when both records carry a
`lastModified` timestamp whose absolute difference exceeds 1000 ms, and it is
symmetric in its two arguments. -/
theorem C6_detectConflict_characterisation_and_symmetry {V : Type} :
    (∀ l r : JsRecord V, detectConflict l r = true ↔
        ∃ lt rt, l.lastModified = some lt ∧ r.lastModified = some rt ∧
          1000 < (lt - rt).natAbs) ∧
    (∀ a b : JsRecord V, detectConflict a b = detectConflict b a) := by
  constructor
  · intro l r
    rcases hl : l.lastModified with _ | lt <;> rcases hr : r.lastModified with _ | rt <;>
      simp [detectConflict, hl, hr]
  · intro a b
    rcases ha : a.lastModified with _ | ta <;> rcases hb : b.lastModified with _ | tb <;>
      simp only [detectConflict, ha, hb]
    have habs : (ta - tb).natAbs = (tb - ta).natAbs := by
      rw [← Int.natAbs_neg (ta - tb), neg_sub]
    rw [habs]

/-- C7: on a detected conflict, `syncWithConflictResolution` returns the
shallow merge in which every field present on the remote record overrides the
local one, every local-only field is preserved, and `lastModified` is stamped
to the resolution instant; with no conflict detected, the local record is
returned unchanged. -/
theorem C7_conflict_merges_remote_wins_else_local {V : Type} (now : Int)
    (localData remoteData : JsRecord V) :
    (detectConflict localData remoteData = true →
        (syncWithConflictResolution now localData remoteData).lastModified = some now ∧
        (∀ k v, remoteData.fields k = some v →
            (syncWithConflictResolution now localData remoteData).fields k = some v) ∧
        (∀ k, remoteData.fields k = none →
            (syncWithConflictResolution now localData remoteData).fields k =
              localData.fields k)) ∧
    (detectConflict localData remoteData = false →
        syncWithConflictResolution now localData remoteData = localData) := by
  constructor
  · intro hc
    rw [syncWithConflictResolution, if_pos hc]
    refine ⟨rfl, ?_, ?_⟩
    · intro k v hk
      simp [spreadFields, hk]
    · intro k hk
      simp [spreadFields, hk]
  · intro hc
    rw [syncWithConflictResolution, if_neg (by simp [hc])]

/-- C7 witness: on the concrete conflicting pair the merge is stamped and
remote-field-wins / local-only-preserved hold at the record's keys; on the
concrete within-tolerance pair the local record is returned unchanged. -/
theorem C7_witness :
    ((syncWithConflictResolution 100 lRecW rRecW).lastModified = some 100 ∧
     (syncWithConflictResolution 100 lRecW rRecW).fields fieldPriceW = some 9 ∧
     (syncWithConflictResolution 100 lRecW rRecW).fields fieldPhoneW = some 7) ∧
    syncWithConflictResolution 100 lRecW rNoW = lRecW := by
  have h1 := (C7_conflict_merges_remote_wins_else_local 100 lRecW rRecW).1 (by decide)
  refine ⟨⟨h1.1, ?_, ?_⟩, (C7_conflict_merges_remote_wins_else_local 100 lRecW rNoW).2 (by decide)⟩
  · exact h1.2.1 fieldPriceW 9 (by decide)
  · exact (h1.2.2 fieldPhoneW (by decide)).trans (by decide)

/-- C10: when both records carry an `id` field and a conflict is detected,
the merged record's `id` is the remote one — the remote-wins spread covers
the `id` key, discarding the local identifier (contrary to the inline
comment's claim that the local ID is kept). -/
theorem C10_merged_record_takes_remote_id {V : Type} (now : Int)
    (localData remoteData : JsRecord V) (lid rid : V)
    (hl : localData.fields fieldId = some lid)
    (hr : remoteData.fields fieldId = some rid)
    (hc : detectConflict localData remoteData = true) :
    (syncWithConflictResolution now localData remoteData).fields fieldId = some rid := by
  rw [syncWithConflictResolution, if_pos hc]
  simp [spreadFields, hr]

/-- C10 witness: on the concrete conflicting pair with local id 1 and remote
id 2, the merged record carries id 2. -/
theorem C10_witness :
    (syncWithConflictResolution 100 lRecW rRecW).fields fieldId = some 2 :=
  C10_merged_record_takes_remote_id 100 lRecW rRecW 1 2 (by decide) (by decide) (by decide)
